import Mathlib

/-!
Verification of the grid-based terminal selector of `go-remove`
(`internal/cli/tui.go`): the grid layout engine (`updateGrid`), the
cursor/selection state machine (`model.Update`), the sort routine
(`sortChoices`), the bounded log buffer (`addLogEntry`) and the entry
point (`RunTUI`).

The Go `model` struct is embedded as the structure `Model`; each local
variable of `updateGrid` becomes a definition (`gridMaxNameLen`,
`gridColWidth`, `gridAvailHeight`, `gridMaxCols`, `gridRows`,
`gridCols`).  Go `int` values that can go negative (terminal width and
height) are kept as `Int`; values that the code keeps non-negative
(cursor coordinates, row and column counts) are `Nat`.  Where Go
computes `maximum(x, 1)` of a possibly negative quotient or difference,
the embedding computes `Int.toNat` (or truncated `Nat` subtraction)
followed by `Nat.max 1`; this agrees with the Go result for every
input because any non-positive intermediate value is mapped to `1` by
both.  The external collaborators (`fs.RemoveBinary`, `fs.ListBinaries`)
are synchronous calls whose results become parameters of the `enter`
event.
-/

/-! ### Layout constants (tui.go `const` block) -/

def colWidthPadding : Nat := 3
def availWidthAdjustment : Int := 4
def minAvailHeightAdjustment : Int := 7
def maxLogLines : Nat := 50
def maxVisibleLogLines : Nat := 5

/-! ### Lexicographic string comparison

Go's `sort.Strings` orders strings by byte-wise lexicographic
comparison.  UTF-8 encoding preserves code-point order, so
character-wise comparison of the decoded strings yields the same order;
`charsLe` is that comparison, made structurally recursive so that it
evaluates inside the kernel. -/

def charsLe : List Char → List Char → Bool
  | [], _ => true
  | _ :: _, [] => false
  | a :: as, b :: bs => if a < b then true else if b < a then false else charsLe as bs

/-- Non-strict byte-order comparison of Go strings (`a <= b`). -/
def strLe (a b : String) : Prop := charsLe a.data b.data = true

/-- Reversed comparison, used for descending sort (`sort.Reverse`). -/
def strGe (a b : String) : Prop := charsLe b.data a.data = true

instance : DecidableRel strLe := fun a b => Bool.decEq (charsLe a.data b.data) true

instance : DecidableRel strGe := fun a b => Bool.decEq (charsLe b.data a.data) true

/-- Pure sorting transform of `sortChoices`: ascending (`sort.Strings`)
or descending (`sort.Sort(sort.Reverse(...))`) lexicographic order.
Go's unstable sort and this insertion sort agree because two sorted
permutations of the same string list are equal. -/
def sortList (ascending : Bool) (l : List String) : List String :=
  if ascending then l.insertionSort strLe else l.insertionSort strGe

/-! ### The TUI model (tui.go `model` struct)

Fields that the Update/updateGrid logic never reads or writes (`dir`,
`config`, `logger`, `fs`, `styles`, `program`, `logChan`) are dropped;
`config.Verbose` surfaces only as the initial value of `showLogs`.  The
external collaborator results (`RemoveBinary` error, fresh
`ListBinaries` listing) become parameters of the `enter` event. -/

structure Model where
  choices : List String
  cursorX : Nat
  cursorY : Nat
  cols : Nat
  rows : Nat
  width : Int
  height : Int
  status : String
  sortAscending : Bool
  logs : List String
  showLogs : Bool
deriving DecidableEq, Repr

/-- Column-major linear index of the cursor (`m.cursorY + m.cursorX*m.rows`). -/
def cursorIdx (m : Model) : Nat := m.cursorY + m.cursorX * m.rows

/-! ### Grid layout engine (`model.updateGrid`)

Each local variable of the Go function becomes a definition reading only
the fields the Go code reads (`choices`, `width`, `height`, `logs`,
`showLogs`). -/

/-- Length in bytes of the longest binary name (the `maxNameLen` loop;
Go `len` on a string counts UTF-8 bytes). -/
def gridMaxNameLen (m : Model) : Nat :=
  m.choices.foldl (fun acc c => max acc c.utf8ByteSize) 0

/-- Column width: longest name plus `colWidthPadding`. -/
def gridColWidth (m : Model) : Nat := gridMaxNameLen m + colWidthPadding

/-- Available height before the log panel: `maximum(m.height-7, 1)`.
`Int.toNat` followed by `max 1` agrees with the Go computation because
every non-positive difference is mapped to 1 by both. -/
def gridAvailHeightBase (m : Model) : Nat :=
  ((m.height - minAvailHeightAdjustment).toNat).max 1

/-- Available height for the grid, with up to `maxVisibleLogLines + 1`
lines reserved when the log panel is visible and non-empty; truncated
`Nat` subtraction agrees with Go because of the final `max 1`. -/
def gridAvailHeight (m : Model) : Nat :=
  if m.showLogs ∧ 0 < m.logs.length then
    (gridAvailHeightBase m - (min m.logs.length maxVisibleLogLines + 1)).max 1
  else gridAvailHeightBase m

/-- Width-derived column cap: `maximum(availWidth/colWidth, 1)`.  Go
truncates the `int` quotient toward zero; for the negative dividends
that can arise here every division convention yields a non-positive
quotient, which `Int.toNat` and the final `max 1` both send to 1, so the
embedding agrees with Go for every width. -/
def gridMaxCols (m : Model) : Nat :=
  (((m.width - availWidthAdjustment) / (gridColWidth m : Int)).toNat).max 1

/-- Row count `m.rows = minimum(availHeight, len(m.choices))`, floored to
1 (the Go floor branch is unreachable for non-empty choices since
`availHeight >= 1`, but it is kept). -/
def gridRows (m : Model) : Nat :=
  if min (gridAvailHeight m) m.choices.length = 0 then 1
  else min (gridAvailHeight m) m.choices.length

/-- Column count `minimum(maxCols, ceil(len/rows))`. -/
def gridCols (m : Model) : Nat :=
  min (gridMaxCols m) ((m.choices.length + gridRows m - 1) / gridRows m)

/-- Cursor column after the bounds clamp `if m.cursorX >= m.cols`. -/
def clampedX (m : Model) : Nat :=
  if m.cursorX ≥ gridCols m then gridCols m - 1 else m.cursorX

/-- Cursor row after the bounds clamp `if m.cursorY >= m.rows`. -/
def clampedY (m : Model) : Nat :=
  if m.cursorY ≥ gridRows m then gridRows m - 1 else m.cursorY

/-- Grid layout recomputation (`model.updateGrid`): clears the grid when
no choices remain, otherwise computes `rows`/`cols` and clamps the
cursor, snapping it to the last item's coordinates when its linear index
overflows the item count. -/
def updateGrid (m : Model) : Model :=
  if m.choices = [] then
    { m with rows := 0, cols := 0, cursorX := 0, cursorY := 0 }
  else
    if clampedY m + clampedX m * gridRows m ≥ m.choices.length then
      { m with rows := gridRows m, cols := gridCols m,
               cursorX := (m.choices.length - 1) / gridRows m,
               cursorY := (m.choices.length - 1) % gridRows m }
    else
      { m with rows := gridRows m, cols := gridCols m,
               cursorX := clampedX m, cursorY := clampedY m }

/-- Sorting step (`model.sortChoices`): no-op on an empty list, otherwise
sorts according to the current flag. -/
def sortChoices (m : Model) : Model :=
  if m.choices = [] then m
  else { m with choices := sortList m.sortAscending m.choices }

/-! ### Log buffer (`model.addLogEntry`) -/

/-- Formatted log entry `"[LEVEL] message"`. -/
def fmtLog (level message : String) : String := "[" ++ level ++ "] " ++ message

/-- Append one formatted entry, keeping only the last `maxLogLines`
entries (`m.logs = m.logs[len(m.logs)-maxLogLines:]`). -/
def appendLog (logs : List String) (entry : String) : List String :=
  if (logs ++ [entry]).length > maxLogLines then
    (logs ++ [entry]).drop ((logs ++ [entry]).length - maxLogLines)
  else logs ++ [entry]

/-- Model-level log append (`model.addLogEntry`). -/
def addLogEntry (m : Model) (level message : String) : Model :=
  { m with logs := appendLog m.logs (fmtLog level message) }

/-- Running a message sequence through the log buffer. -/
def runLogs (logs : List String) (msgs : List (String × String)) : List String :=
  msgs.foldl (fun l p => appendLog l (fmtLog p.1 p.2)) logs

/-! ### The event-driven update loop (`model.Update`)

Events (`tea.Msg` values the switch handles) become the `Msg` inductive.
The `enter` event carries the outcome of the external `RemoveBinary`
call (`some reason` on failure) and the fresh `ListBinaries` result used
on success.  The returned `Bool` is true exactly when the Go code
returns the `tea.Quit` command. -/

inductive Msg where
  | up
  | down
  | left
  | right
  | toggleSort
  | toggleLogs
  | enter (removeErr : Option String) (newList : List String)
  | resize (w h : Int)
  | log (level message : String)
  | quit
deriving DecidableEq, Repr

/-- One step of the state machine (`model.Update`). -/
def update (m : Model) (msg : Msg) : Model × Bool :=
  match msg with
  | .quit => (m, true)
  | .up =>
    (if m.cursorY > 0 then { m with cursorY := m.cursorY - 1 } else m, false)
  | .down =>
    let newY := m.cursorY + 1
    let newIdx := newY + m.cursorX * m.rows
    (if newY < m.rows ∧ newIdx < m.choices.length then { m with cursorY := newY } else m,
     false)
  | .left =>
    (if m.cursorX > 0 then { m with cursorX := m.cursorX - 1 } else m, false)
  | .right =>
    let newX := m.cursorX + 1
    let newIdx := m.cursorY + newX * m.rows
    (if newX < m.cols ∧ newIdx < m.choices.length then { m with cursorX := newX } else m,
     false)
  | .toggleSort =>
    (updateGrid (sortChoices { m with sortAscending := !m.sortAscending }), false)
  | .toggleLogs =>
    (updateGrid { m with showLogs := !m.showLogs }, false)
  | .enter removeErr newList =>
    if 0 < m.choices.length then
      let idx := cursorIdx m
      if idx < m.choices.length then
        let name := m.choices.getD idx ""
        match removeErr with
        | some e => ({ m with status := "Error removing " ++ name ++ ": " ++ e }, false)
        | none =>
          let m1 := sortChoices { m with status := "Removed " ++ name, choices := newList }
          if m1.choices.length = 0 then (m1, true)
          else
            let m2 :=
              if cursorIdx m1 ≥ m1.choices.length then
                let lastIdx := m1.choices.length - 1
                { m1 with cursorX := lastIdx / m1.rows, cursorY := lastIdx % m1.rows }
              else m1
            (updateGrid m2, false)
      else (m, false)
    else (m, false)
  | .resize w h =>
    (updateGrid { m with width := w, height := h }, false)
  | .log level message =>
    (updateGrid (addLogEntry m level message), false)

/-- Folding a whole event sequence through `update` (the Bubble Tea
event loop driving `model.Update`). -/
def run (m : Model) (msgs : List Msg) : Model :=
  msgs.foldl (fun s e => (update s e).1) m

/-- Initial model built by `RunTUI` (cursor at the origin, ascending
sort) after `Init` has sorted the choices and the first
`WindowSizeMsg` has computed the layout. -/
def initModel (choices : List String) (verbose : Bool) (w h : Int) : Model :=
  updateGrid (sortChoices
    { choices := choices, cursorX := 0, cursorY := 0, cols := 0, rows := 0,
      width := w, height := h, status := "", sortAscending := true,
      logs := [], showLogs := verbose })

/-! ### Entry point (`RunTUI`) -/

/-- Message of the sentinel error `ErrNoBinariesFound`. -/
def ErrNoBinariesFoundMsg : String := "no binaries found in directory"

/-- Errors `RunTUI` can return; `noBinaries` models the distinct
sentinel value `ErrNoBinariesFound` wrapped with the directory. -/
inductive TUIError where
  | noBinaries (dir : String)
  | startFailed (e : String)
  | runFailed (e : String)
deriving DecidableEq, Repr

/-- Rendered error message (`fmt.Errorf` wrapping). -/
def TUIError.message : TUIError → String
  | .noBinaries dir => ErrNoBinariesFoundMsg ++ ": " ++ dir
  | .startFailed e => "failed to start TUI program: " ++ e
  | .runFailed e => "failed to run TUI program: " ++ e

/-- Outcome of `RunTUI`: the returned error, and whether the interactive
loop (`program.Run()`) was started. -/
structure RunTUIResult where
  err : Option TUIError
  loopStarted : Bool
deriving DecidableEq, Repr

/-- Entry point (`RunTUI`).  `choices` is the initial `ListBinaries`
fetch; `runnerErr` is the error of `runner.RunProgram`, `programNil`
models the mocked nil-program path, `runErr` the error of
`program.Run()`. -/
def runTUI (dir : String) (choices : List String) (runnerErr : Option String)
    (programNil : Bool) (runErr : Option String) : RunTUIResult :=
  if choices.isEmpty then ⟨some (.noBinaries dir), false⟩
  else
    match runnerErr with
    | some e => ⟨some (.startFailed e), false⟩
    | none =>
      if programNil then ⟨none, false⟩
      else
        match runErr with
        | some e => ⟨some (.runFailed e), true⟩
        | none => ⟨none, true⟩

/-! ### Spec-side description of the successful activate transition

These definitions follow the SPEC's wording of the on-success branch
(set status, take the re-fetched list, re-sort under the current flag,
clamp the cursor with `lastIdx = N-1` when the old index is out of
range, recompute layout); they are compared against `update`. -/

/-- Spec wording, step 1: removal status plus re-fetched re-sorted list. -/
def specAfterRemove (m : Model) (newList : List String) : Model :=
  { m with status := "Removed " ++ m.choices.getD (cursorIdx m) "",
           choices := sortList m.sortAscending newList }

/-- Spec wording, step 2: clamp the cursor via `lastIdx = N-1`,
`cursorX = lastIdx / rows`, `cursorY = lastIdx % rows` when the old
linear index is out of range. -/
def specClampAfterRemove (m : Model) (newList : List String) : Model :=
  if (specAfterRemove m newList).choices.length
      ≤ cursorIdx (specAfterRemove m newList) then
    { specAfterRemove m newList with
      cursorX := ((specAfterRemove m newList).choices.length - 1)
        / (specAfterRemove m newList).rows,
      cursorY := ((specAfterRemove m newList).choices.length - 1)
        % (specAfterRemove m newList).rows }
  else specAfterRemove m newList

/-- Spec wording, step 3: recompute the layout. -/
def specEnterSuccess (m : Model) (newList : List String) : Model :=
  updateGrid (specClampAfterRemove m newList)

/-! ### Concrete models used in scenarios, witnesses and counterexamples -/

/-- Two single-letter items in a narrow, short terminal. -/
def narrowModel : Model :=
  { choices := ["a", "b"], cursorX := 0, cursorY := 0, cols := 0, rows := 0,
    width := 10, height := 8, status := "", sortAscending := true,
    logs := [], showLogs := false }

/-- No items at all. -/
def emptyModel : Model :=
  { choices := [], cursorX := 3, cursorY := 4, cols := 2, rows := 2,
    width := 80, height := 24, status := "", sortAscending := true,
    logs := [], showLogs := false }

/-- Items `["age", "vhs"]` laid out in one column of two rows in an
80x24 terminal, cursor on `"age"` (the spec's deletion scenario). -/
def ageVhsModel : Model :=
  { choices := ["age", "vhs"], cursorX := 0, cursorY := 0, cols := 1, rows := 2,
    width := 80, height := 24, status := "", sortAscending := true,
    logs := [], showLogs := false }

/-- Single item `"age"` in a one-cell grid (the spec's failing-delete
scenario). -/
def ageModel : Model :=
  { choices := ["age"], cursorX := 0, cursorY := 0, cols := 1, rows := 1,
    width := 80, height := 24, status := "", sortAscending := true,
    logs := [], showLogs := false }

/-- A model whose item list is NOT sorted according to its current
ascending flag, with an out-of-bounds cursor. -/
def unsortedModel : Model :=
  { choices := ["b", "a"], cursorX := 5, cursorY := 7, cols := 0, rows := 0,
    width := 0, height := 0, status := "", sortAscending := true,
    logs := [], showLogs := false }

/-! ### Properties of the string comparison and of `sortList` -/

theorem charsLe_total (x y : List Char) : charsLe x y = true ∨ charsLe y x = true := by
  induction x generalizing y with
  | nil => exact Or.inl rfl
  | cons a as ih =>
    cases y with
    | nil => exact Or.inr rfl
    | cons b bs =>
      rcases lt_trichotomy a b with h | h | h
      · left; simp [charsLe, h]
      · subst h
        rcases ih bs with h' | h' <;> simp [charsLe, h', lt_irrefl]
      · right; simp [charsLe, h]

theorem charsLe_trans (x y z : List Char) (h1 : charsLe x y = true)
    (h2 : charsLe y z = true) : charsLe x z = true := by
  induction x generalizing y z with
  | nil => rfl
  | cons a as ih =>
    cases y with
    | nil => simp [charsLe] at h1
    | cons b bs =>
      cases z with
      | nil => simp [charsLe] at h2
      | cons c cs =>
        simp only [charsLe] at h1 h2 ⊢
        by_cases hab : a < b
        · by_cases hbc : b < c
          · simp [lt_trans hab hbc]
          · by_cases hcb : c < b
            · simp [hab, hbc, hcb] at h2
            · have : b = c := le_antisymm (not_lt.mp hcb) (not_lt.mp hbc)
              subst this
              simp [hab]
        · by_cases hba : b < a
          · simp [hab, hba] at h1
          · have : a = b := le_antisymm (not_lt.mp hba) (not_lt.mp hab)
            subst this
            simp only [hab, if_neg, lt_irrefl, if_false] at h1
            by_cases hbc : a < c
            · simp [hbc]
            · by_cases hcb : c < a
              · simp [hbc, hcb] at h2
              · simp only [hbc, if_neg, hcb, if_false]
                simp only [hbc, if_neg, hcb, if_false] at h2
                exact ih bs cs h1 h2

theorem charsLe_antisymm (x y : List Char) (h1 : charsLe x y = true)
    (h2 : charsLe y x = true) : x = y := by
  induction x generalizing y with
  | nil =>
    cases y with
    | nil => rfl
    | cons b bs => simp [charsLe] at h2
  | cons a as ih =>
    cases y with
    | nil => simp [charsLe] at h1
    | cons b bs =>
      simp only [charsLe] at h1 h2
      by_cases hab : a < b
      · simp [hab, asymm hab] at h2
      · by_cases hba : b < a
        · simp [hab, hba] at h1
        · have hab' : a = b := le_antisymm (not_lt.mp hba) (not_lt.mp hab)
          subst hab'
          simp only [lt_irrefl, if_neg, if_false] at h1 h2
          exact congrArg (a :: ·) (ih bs h1 h2)

instance : IsTotal String strLe := ⟨fun a b => charsLe_total a.data b.data⟩

instance : IsTrans String strLe := ⟨fun a b c => charsLe_trans a.data b.data c.data⟩

instance : IsAntisymm String strLe :=
  ⟨fun a b h1 h2 => by
    cases a; cases b
    exact congrArg String.mk (charsLe_antisymm _ _ h1 h2)⟩

instance : IsTotal String strGe := ⟨fun a b => charsLe_total b.data a.data⟩

instance : IsTrans String strGe := ⟨fun a b c h1 h2 => charsLe_trans c.data b.data a.data h2 h1⟩

instance : IsAntisymm String strGe :=
  ⟨fun a b h1 h2 => by
    cases a; cases b
    exact congrArg String.mk (charsLe_antisymm _ _ h2 h1)⟩

theorem sortList_perm (b : Bool) (l : List String) : List.Perm (sortList b l) l := by
  cases b <;> simp [sortList, List.perm_insertionSort]

theorem sortList_length (b : Bool) (l : List String) :
    (sortList b l).length = l.length :=
  (sortList_perm b l).length_eq

theorem sortList_congr_perm (b : Bool) {l₁ l₂ : List String} (h : List.Perm l₁ l₂) :
    sortList b l₁ = sortList b l₂ := by
  cases b with
  | false =>
    exact List.eq_of_perm_of_sorted
      (((sortList_perm false l₁).trans h).trans (sortList_perm false l₂).symm)
      (List.sorted_insertionSort strGe l₁) (List.sorted_insertionSort strGe l₂)
  | true =>
    exact List.eq_of_perm_of_sorted
      (((sortList_perm true l₁).trans h).trans (sortList_perm true l₂).symm)
      (List.sorted_insertionSort strLe l₁) (List.sorted_insertionSort strLe l₂)

theorem sortList_sortList (b b' : Bool) (l : List String) :
    sortList b (sortList b' l) = sortList b l :=
  sortList_congr_perm b (sortList_perm b' l)

/-! ### Arithmetic facts about the grid dimensions -/

theorem grid_dim_identity {r c : Nat} (hr : 1 ≤ r) (hc : 1 ≤ c) :
    (r - 1) + (c - 1) * r + 1 = c * r := by
  cases r with
  | zero => omega
  | succ r' =>
    cases c with
    | zero => omega
    | succ c' =>
      simp only [Nat.succ_sub_one]
      ring

theorem le_ceil_mul {n r : Nat} (hn : 1 ≤ n) (hr : 0 < r) :
    n ≤ ((n + r - 1) / r) * r := by
  rw [show n + r - 1 = (n - 1) + r from by omega, Nat.add_div_right _ hr,
    Nat.add_mul, Nat.one_mul]
  have h := Nat.lt_div_mul_add (a := n - 1) hr
  generalize (n - 1) / r * r = t at h ⊢
  omega

/-! ### Field-preservation lemmas -/

theorem updateGrid_choices (m : Model) : (updateGrid m).choices = m.choices := by
  unfold updateGrid; split
  · rfl
  · split <;> rfl

theorem updateGrid_width (m : Model) : (updateGrid m).width = m.width := by
  unfold updateGrid; split
  · rfl
  · split <;> rfl

theorem updateGrid_height (m : Model) : (updateGrid m).height = m.height := by
  unfold updateGrid; split
  · rfl
  · split <;> rfl

theorem updateGrid_status (m : Model) : (updateGrid m).status = m.status := by
  unfold updateGrid; split
  · rfl
  · split <;> rfl

theorem updateGrid_sortAscending (m : Model) :
    (updateGrid m).sortAscending = m.sortAscending := by
  unfold updateGrid; split
  · rfl
  · split <;> rfl

theorem updateGrid_logs (m : Model) : (updateGrid m).logs = m.logs := by
  unfold updateGrid; split
  · rfl
  · split <;> rfl

theorem updateGrid_showLogs (m : Model) : (updateGrid m).showLogs = m.showLogs := by
  unfold updateGrid; split
  · rfl
  · split <;> rfl

theorem sortChoices_choices (m : Model) (h : m.choices ≠ []) :
    (sortChoices m).choices = sortList m.sortAscending m.choices := by
  unfold sortChoices; rw [if_neg h]

theorem sortChoices_cursorX (m : Model) : (sortChoices m).cursorX = m.cursorX := by
  unfold sortChoices; split <;> rfl

theorem sortChoices_cursorY (m : Model) : (sortChoices m).cursorY = m.cursorY := by
  unfold sortChoices; split <;> rfl

theorem sortChoices_rows (m : Model) : (sortChoices m).rows = m.rows := by
  unfold sortChoices; split <;> rfl

theorem sortChoices_cols (m : Model) : (sortChoices m).cols = m.cols := by
  unfold sortChoices; split <;> rfl

theorem sortChoices_width (m : Model) : (sortChoices m).width = m.width := by
  unfold sortChoices; split <;> rfl

theorem sortChoices_height (m : Model) : (sortChoices m).height = m.height := by
  unfold sortChoices; split <;> rfl

theorem sortChoices_sortAscending (m : Model) :
    (sortChoices m).sortAscending = m.sortAscending := by
  unfold sortChoices; split <;> rfl

theorem sortChoices_logs (m : Model) : (sortChoices m).logs = m.logs := by
  unfold sortChoices; split <;> rfl

theorem sortChoices_showLogs (m : Model) : (sortChoices m).showLogs = m.showLogs := by
  unfold sortChoices; split <;> rfl

theorem sortChoices_perm (m : Model) :
    List.Perm (sortChoices m).choices m.choices := by
  unfold sortChoices; split
  · exact List.Perm.refl _
  · exact sortList_perm _ _

/-! ### Congruence of the derived grid dimensions

`gridRows` and `gridCols` read only `choices` (its length and the
multiset of name lengths), `width`, `height`, `logs` and `showLogs`. -/

theorem foldl_max_perm {l₁ l₂ : List String} (p : List.Perm l₁ l₂) :
    ∀ b : Nat, l₁.foldl (fun acc c => max acc c.utf8ByteSize) b
      = l₂.foldl (fun acc c => max acc c.utf8ByteSize) b := by
  induction p with
  | nil => intro b; rfl
  | cons x _ ih => intro b; simp only [List.foldl_cons]; exact ih _
  | swap x y l =>
    intro b
    simp only [List.foldl_cons]
    rw [Nat.max_right_comm]
  | trans _ _ ih1 ih2 => intro b; rw [ih1, ih2]

theorem gridMaxNameLen_congr {m₁ m₂ : Model}
    (h : List.Perm m₁.choices m₂.choices) :
    gridMaxNameLen m₁ = gridMaxNameLen m₂ :=
  foldl_max_perm h 0

theorem gridAvailHeight_congr {m₁ m₂ : Model} (hh : m₁.height = m₂.height)
    (hl : m₁.logs = m₂.logs) (hs : m₁.showLogs = m₂.showLogs) :
    gridAvailHeight m₁ = gridAvailHeight m₂ := by
  unfold gridAvailHeight gridAvailHeightBase
  rw [hh, hl, hs]

theorem gridRows_congr {m₁ m₂ : Model}
    (hp : List.Perm m₁.choices m₂.choices) (hh : m₁.height = m₂.height)
    (hl : m₁.logs = m₂.logs) (hs : m₁.showLogs = m₂.showLogs) :
    gridRows m₁ = gridRows m₂ := by
  unfold gridRows
  rw [gridAvailHeight_congr hh hl hs, hp.length_eq]

theorem gridCols_congr {m₁ m₂ : Model}
    (hp : List.Perm m₁.choices m₂.choices) (hw : m₁.width = m₂.width)
    (hh : m₁.height = m₂.height) (hl : m₁.logs = m₂.logs)
    (hs : m₁.showLogs = m₂.showLogs) :
    gridCols m₁ = gridCols m₂ := by
  unfold gridCols gridMaxCols gridColWidth
  rw [gridMaxNameLen_congr hp, hw, gridRows_congr hp hh hl hs, hp.length_eq]

/-! ### Positivity and cursor validity after `updateGrid` -/

theorem gridRows_pos (m : Model) : 1 ≤ gridRows m := by
  unfold gridRows
  split <;> omega

theorem gridRows_le_length (m : Model) (h : m.choices ≠ []) :
    gridRows m ≤ m.choices.length := by
  have hlen : 1 ≤ m.choices.length := List.length_pos.mpr h
  unfold gridRows
  have := Nat.min_le_right (gridAvailHeight m) m.choices.length
  split <;> omega

theorem gridCols_pos (m : Model) (h : m.choices ≠ []) : 1 ≤ gridCols m := by
  have hlen : 1 ≤ m.choices.length := List.length_pos.mpr h
  have hr : 1 ≤ gridRows m := gridRows_pos m
  unfold gridCols
  refine le_min (le_max_right _ _) ?_
  rw [Nat.one_le_div_iff (by omega)]
  omega

theorem clampedX_lt (m : Model) (hc : 1 ≤ gridCols m) :
    clampedX m < gridCols m := by
  unfold clampedX
  split <;> omega

theorem clampedY_lt (m : Model) (hr : 1 ≤ gridRows m) :
    clampedY m < gridRows m := by
  unfold clampedY
  split <;> omega

theorem updateGrid_rows (m : Model) (h : m.choices ≠ []) :
    (updateGrid m).rows = gridRows m := by
  unfold updateGrid
  rw [if_neg h]
  split <;> rfl

theorem updateGrid_cols (m : Model) (h : m.choices ≠ []) :
    (updateGrid m).cols = gridCols m := by
  unfold updateGrid
  rw [if_neg h]
  split <;> rfl

theorem updateGrid_cursor_valid (m : Model) (h : m.choices ≠ []) :
    (updateGrid m).cursorX < (updateGrid m).cols ∧
      (updateGrid m).cursorY < (updateGrid m).rows ∧
      cursorIdx (updateGrid m) < (updateGrid m).choices.length := by
  have hlen : 1 ≤ m.choices.length := List.length_pos.mpr h
  have hr : 1 ≤ gridRows m := gridRows_pos m
  have hc : 1 ≤ gridCols m := gridCols_pos m h
  unfold updateGrid
  rw [if_neg h]
  by_cases hsnap : clampedY m + clampedX m * gridRows m ≥ m.choices.length
  · rw [if_pos hsnap]
    have hdx : clampedX m ≤ gridCols m - 1 := by
      have := clampedX_lt m hc; omega
    have hdy : clampedY m ≤ gridRows m - 1 := by
      have := clampedY_lt m hr; omega
    have hmul : clampedX m * gridRows m ≤ (gridCols m - 1) * gridRows m :=
      Nat.mul_le_mul_right _ hdx
    have hbound : m.choices.length
        ≤ (gridRows m - 1) + (gridCols m - 1) * gridRows m := by
      have := add_le_add hdy hmul
      omega
    have hE := grid_dim_identity hr hc
    have hlt : m.choices.length - 1 < gridCols m * gridRows m := by
      generalize (gridCols m - 1) * gridRows m = b at hbound hE
      generalize gridCols m * gridRows m = p at hE ⊢
      omega
    refine ⟨?_, ?_, ?_⟩
    · exact (Nat.div_lt_iff_lt_mul (by omega)).mpr hlt
    · exact Nat.mod_lt _ (by omega)
    · show (m.choices.length - 1) % gridRows m
        + (m.choices.length - 1) / gridRows m * gridRows m < m.choices.length
      rw [Nat.mod_add_div']
      omega
  · rw [if_neg hsnap]
    refine ⟨clampedX_lt m hc, clampedY_lt m hr, ?_⟩
    show clampedY m + clampedX m * gridRows m < m.choices.length
    omega

theorem updateGrid_cursorOk (m : Model) (h : m.choices ≠ []) :
    cursorIdx (updateGrid m) < (updateGrid m).choices.length :=
  (updateGrid_cursor_valid m h).2.2

theorem updateGrid_empty (m : Model) (h : m.choices = []) :
    updateGrid m = { m with rows := 0, cols := 0, cursorX := 0, cursorY := 0 } := by
  unfold updateGrid
  rw [if_pos h]

theorem updateGrid_idem (m : Model) : updateGrid (updateGrid m) = updateGrid m := by
  by_cases h : m.choices = []
  · have h' : (updateGrid m).choices = [] := by rw [updateGrid_choices]; exact h
    rw [updateGrid_empty _ h', updateGrid_empty _ h]
  · have h' : (updateGrid m).choices ≠ [] := by rw [updateGrid_choices]; exact h
    obtain ⟨hx, hy, hidx⟩ := updateGrid_cursor_valid m h
    have hperm : List.Perm (updateGrid m).choices m.choices := by
      rw [updateGrid_choices]
    have hrows : gridRows (updateGrid m) = gridRows m :=
      gridRows_congr hperm (updateGrid_height m) (updateGrid_logs m) (updateGrid_showLogs m)
    have hcols : gridCols (updateGrid m) = gridCols m :=
      gridCols_congr hperm (updateGrid_width m) (updateGrid_height m) (updateGrid_logs m)
        (updateGrid_showLogs m)
    have hcx : clampedX (updateGrid m) = (updateGrid m).cursorX := by
      unfold clampedX
      rw [if_neg (by rw [hcols, ← updateGrid_cols m h]; omega)]
    have hcy : clampedY (updateGrid m) = (updateGrid m).cursorY := by
      unfold clampedY
      rw [if_neg (by rw [hrows, ← updateGrid_rows m h]; omega)]
    have hnosnap : ¬ (clampedY (updateGrid m)
        + clampedX (updateGrid m) * gridRows (updateGrid m)
        ≥ (updateGrid m).choices.length) := by
      rw [hcx, hcy, hrows, ← updateGrid_rows m h]
      exact not_le.mpr hidx
    conv_lhs => rw [updateGrid]
    rw [if_neg h', if_neg hnosnap, hcx, hcy, hrows, hcols,
      ← updateGrid_rows m h, ← updateGrid_cols m h]

/-! ### Cursor-bound invariant of the state machine -/

theorem updateGrid_cursorOk' (m : Model) :
    (updateGrid m).choices ≠ [] →
      cursorIdx (updateGrid m) < (updateGrid m).choices.length := by
  intro hne
  exact updateGrid_cursorOk m (by rwa [updateGrid_choices] at hne)

theorem update_cursorOk (m : Model) (msg : Msg)
    (h : m.choices ≠ [] → cursorIdx m < m.choices.length) :
    (update m msg).1.choices ≠ [] →
      cursorIdx (update m msg).1 < (update m msg).1.choices.length := by
  cases msg with
  | quit => exact h
  | up =>
    by_cases hc : 0 < m.cursorY
    · simp only [update, if_pos hc]
      intro hne
      have hlt := h hne
      unfold cursorIdx at hlt ⊢
      exact lt_of_le_of_lt (Nat.add_le_add_right (Nat.sub_le _ _) _) hlt
    · simp only [update, if_neg hc]
      exact h
  | down =>
    simp only [update]
    split
    · rename_i hcond
      intro _
      unfold cursorIdx
      exact hcond.2
    · exact h
  | left =>
    by_cases hc : 0 < m.cursorX
    · simp only [update, if_pos hc]
      intro hne
      have hlt := h hne
      unfold cursorIdx at hlt ⊢
      exact lt_of_le_of_lt
        (Nat.add_le_add_left (Nat.mul_le_mul_right _ (Nat.sub_le _ _)) _) hlt
    · simp only [update, if_neg hc]
      exact h
  | right =>
    simp only [update]
    split
    · rename_i hcond
      intro _
      unfold cursorIdx
      exact hcond.2
    · exact h
  | toggleSort => exact updateGrid_cursorOk' _
  | toggleLogs => exact updateGrid_cursorOk' _
  | resize w hgt => exact updateGrid_cursorOk' _
  | log level message => exact updateGrid_cursorOk' _
  | enter removeErr newList =>
    simp only [update]
    split
    · split
      · cases removeErr with
        | some e =>
          intro hne
          exact h hne
        | none =>
          simp only []
          split
          · rename_i hlen0
            intro hne
            exact absurd (List.length_eq_zero.mp hlen0) hne
          · exact updateGrid_cursorOk' _
      · exact h
    · exact h

theorem run_cursorOk (msgs : List Msg) (m : Model)
    (h : m.choices ≠ [] → cursorIdx m < m.choices.length) :
    (run m msgs).choices ≠ [] →
      cursorIdx (run m msgs) < (run m msgs).choices.length := by
  induction msgs generalizing m with
  | nil => exact h
  | cons e es ih => exact ih _ (update_cursorOk m e h)

/-! ### Properties of the bounded log buffer -/

theorem appendLog_eq (logs : List String) (e : String) :
    appendLog logs e = (logs ++ [e]).drop ((logs.length + 1) - maxLogLines) := by
  unfold appendLog
  split
  · rename_i hgt
    congr 1
    simp [List.length_append]
  · rename_i hle
    simp only [List.length_append, List.length_cons, List.length_nil, not_lt] at hle
    rw [show logs.length + 1 - maxLogLines = 0 from by omega, List.drop_zero]

theorem appendLog_length_le (logs : List String) (e : String) :
    (appendLog logs e).length ≤ maxLogLines := by
  unfold appendLog
  split
  · rename_i hgt
    simp only [List.length_drop, List.length_append, List.length_cons,
      List.length_nil] at hgt ⊢
    omega
  · rename_i hle
    simp only [List.length_append, List.length_cons, List.length_nil, not_lt] at hle
    simp only [List.length_append, List.length_cons, List.length_nil]
    omega

theorem runLogs_length_le (msgs : List (String × String)) :
    ∀ logs : List String, logs.length ≤ maxLogLines →
      (runLogs logs msgs).length ≤ maxLogLines := by
  induction msgs with
  | nil => intro logs h; exact h
  | cons p ps ih => intro logs h; exact ih _ (appendLog_length_le _ _)

theorem runLogs_eq_drop (msgs : List (String × String)) :
    ∀ logs : List String, logs.length ≤ maxLogLines →
      runLogs logs msgs
        = (logs ++ msgs.map (fun p => fmtLog p.1 p.2)).drop
            ((logs.length + msgs.length) - maxLogLines) := by
  induction msgs with
  | nil =>
    intro logs h
    simp only [runLogs, List.foldl_nil, List.map_nil, List.append_nil, List.length_nil,
      Nat.add_zero]
    rw [show logs.length - maxLogLines = 0 from by omega, List.drop_zero]
  | cons p ps ih =>
    intro logs h
    show runLogs (appendLog logs (fmtLog p.1 p.2)) ps = _
    rw [ih _ (appendLog_length_le _ _), appendLog_eq]
    have hd : (logs.length + 1) - maxLogLines ≤ (logs ++ [fmtLog p.1 p.2]).length := by
      simp only [List.length_append, List.length_cons, List.length_nil]
      omega
    rw [← List.drop_append_of_le_length hd, List.drop_drop]
    have hlen : ((logs ++ [fmtLog p.1 p.2]).drop ((logs.length + 1) - maxLogLines)).length
        = logs.length + 1 - ((logs.length + 1) - maxLogLines) := by
      simp [List.length_drop, List.length_append]
    rw [hlen]
    simp only [List.map_cons, List.length_cons]
    congr 1
    · omega
    · simp [List.append_assoc]

/-! ### Setting fields to their own values is the identity -/

theorem model_set_dims_eq (x : Model) (w h : Int) (hw : x.width = w)
    (hh : x.height = h) : { x with width := w, height := h } = x := by
  cases x
  subst hw
  subst hh
  rfl

/-! ### C1: grid dimensions after `updateGrid` -/

/-- C1 counterexample: with the two single-letter items of
`narrowModel` in a 10x8 terminal, `updateGrid` computes a 1x1 grid, so
`rows * cols < itemCount` although `itemCount >= 1`; the claimed
invariant `rows * cols >= N` fails when the width-derived column cap is
the binding constraint. -/
theorem updateGrid_cover_cex :
    1 ≤ narrowModel.choices.length ∧
    (updateGrid narrowModel).rows * (updateGrid narrowModel).cols
      < narrowModel.choices.length := by decide

/-- C1 (amended): for every item count `N >= 1` and every terminal
width and height, `updateGrid` yields `rows >= 1` and `cols >= 1`, and
`rows * cols >= N` holds whenever the width-derived column cap
`gridMaxCols` is not the binding constraint (otherwise `cols` equals
that cap and the grid may cover fewer than `N` items); when `N = 0`,
`updateGrid` sets `rows = 0` and `cols = 0` and resets the cursor to
`(0, 0)`. -/
theorem updateGrid_dims_spec_amended (m : Model) :
    (1 ≤ m.choices.length →
      1 ≤ (updateGrid m).rows ∧ 1 ≤ (updateGrid m).cols ∧
        (m.choices.length ≤ (updateGrid m).rows * (updateGrid m).cols ∨
          (updateGrid m).cols = gridMaxCols m)) ∧
    (m.choices.length = 0 →
      (updateGrid m).rows = 0 ∧ (updateGrid m).cols = 0 ∧
        (updateGrid m).cursorX = 0 ∧ (updateGrid m).cursorY = 0) := by
  constructor
  · intro hlen
    have h : m.choices ≠ [] := by
      intro he
      rw [he] at hlen
      simp at hlen
    rw [updateGrid_rows m h, updateGrid_cols m h]
    have hr := gridRows_pos m
    refine ⟨hr, gridCols_pos m h, ?_⟩
    rcases le_or_lt ((m.choices.length + gridRows m - 1) / gridRows m) (gridMaxCols m)
      with hle | hlt
    · left
      have hcols : gridCols m = (m.choices.length + gridRows m - 1) / gridRows m := by
        unfold gridCols
        exact min_eq_right hle
      rw [hcols, Nat.mul_comm]
      exact le_ceil_mul hlen (by omega)
    · right
      unfold gridCols
      exact min_eq_left (le_of_lt hlt)
  · intro hlen
    rw [updateGrid_empty m (List.length_eq_zero.mp hlen)]
    exact ⟨rfl, rfl, rfl, rfl⟩

/-- C1 witness: the amended statement instantiated at `narrowModel`
(non-empty) and `emptyModel` (empty). -/
theorem updateGrid_dims_spec_amended_witness :
    (1 ≤ narrowModel.choices.length ∧
      (1 ≤ (updateGrid narrowModel).rows ∧ 1 ≤ (updateGrid narrowModel).cols ∧
        (narrowModel.choices.length
            ≤ (updateGrid narrowModel).rows * (updateGrid narrowModel).cols ∨
          (updateGrid narrowModel).cols = gridMaxCols narrowModel))) ∧
    (emptyModel.choices.length = 0 ∧
      ((updateGrid emptyModel).rows = 0 ∧ (updateGrid emptyModel).cols = 0 ∧
        (updateGrid emptyModel).cursorX = 0 ∧ (updateGrid emptyModel).cursorY = 0)) :=
  ⟨⟨by decide, (updateGrid_dims_spec_amended narrowModel).1 (by decide)⟩,
   ⟨by decide, (updateGrid_dims_spec_amended emptyModel).2 (by decide)⟩⟩

/-! ### C2: the cursor always addresses an existing item -/

/-- C2: from the initial state (cursor at the origin, sorted item list,
layout computed) every state reachable by any sequence of handled
events keeps the cursor on an existing item: whenever the item list is
non-empty with `N` items, `cursorY + cursorX * rows < N`; in
particular every mutation that shrinks the set clamps the cursor back
to a valid index. -/
theorem reachable_cursor_addresses_item (choices : List String) (verbose : Bool)
    (w h : Int) (msgs : List Msg)
    (hne : (run (initModel choices verbose w h) msgs).choices ≠ []) :
    cursorIdx (run (initModel choices verbose w h) msgs)
      < (run (initModel choices verbose w h) msgs).choices.length :=
  run_cursorOk msgs _ (updateGrid_cursorOk' _) hne

/-- C2 witness: a concrete run (a move down, then a successful deletion
that re-fetches a two-item list) ends with the cursor on a real item. -/
theorem reachable_cursor_addresses_item_witness :
    (run (initModel ["b", "a"] false 80 24)
        [Msg.down, Msg.enter none ["x", "y"]]).choices ≠ [] ∧
    cursorIdx (run (initModel ["b", "a"] false 80 24)
        [Msg.down, Msg.enter none ["x", "y"]])
      < (run (initModel ["b", "a"] false 80 24)
          [Msg.down, Msg.enter none ["x", "y"]]).choices.length :=
  ⟨by decide, reachable_cursor_addresses_item _ _ _ _ _ (by decide)⟩

/-! ### C3: successful deletion -/

/-- C3: when the activate event is handled with the cursor on item
`name` and the external delete succeeds, the machine sets status to
`"Removed " ++ name`, replaces the items by the re-fetched list sorted
under the current flag, quits exactly when that list is empty, and
otherwise clamps the cursor via `lastIdx = N-1`, `cursorX = lastIdx /
rows`, `cursorY = lastIdx % rows` when the old index is out of range
and recomputes the layout (`specEnterSuccess`); concretely, deleting
`"age"` from `["age", "vhs"]` yields status `"Removed age"`, item set
`["vhs"]` and cursor `(0, 0)`. -/
theorem enter_success_transition :
    (∀ (m : Model) (newList : List String), cursorIdx m < m.choices.length →
      (newList = [] →
        update m (Msg.enter none newList)
          = ({ m with status := "Removed " ++ m.choices.getD (cursorIdx m) "",
                      choices := [] }, true)) ∧
      (newList ≠ [] →
        update m (Msg.enter none newList) = (specEnterSuccess m newList, false))) ∧
    ((update ageVhsModel (Msg.enter none ["vhs"])).1.status = "Removed age" ∧
      (update ageVhsModel (Msg.enter none ["vhs"])).1.choices = ["vhs"] ∧
      (update ageVhsModel (Msg.enter none ["vhs"])).1.cursorX = 0 ∧
      (update ageVhsModel (Msg.enter none ["vhs"])).1.cursorY = 0 ∧
      (update ageVhsModel (Msg.enter none ["vhs"])).2 = false) := by
  constructor
  · intro m newList hidx
    have hpos : 0 < m.choices.length := lt_of_le_of_lt (Nat.zero_le _) hidx
    constructor
    · intro he
      subst he
      simp only [update, if_pos hpos, if_pos hidx, sortChoices]
      simp
    · intro hne
      simp only [update, if_pos hpos, if_pos hidx]
      have hm1 : sortChoices { m with
          status := "Removed " ++ m.choices.getD (cursorIdx m) "",
          choices := newList } = specAfterRemove m newList := by
        unfold sortChoices specAfterRemove
        rw [if_neg hne]
      rw [hm1]
      have hlen0 : ¬ ((specAfterRemove m newList).choices.length = 0) := by
        unfold specAfterRemove
        simp only []
        rw [sortList_length]
        simpa using hne
      rw [if_neg hlen0]
      rfl
  · decide

/-- C3 witness: the general transition applied to the spec's scenario. -/
theorem enter_success_transition_witness :
    cursorIdx ageVhsModel < ageVhsModel.choices.length ∧
    (["vhs"] : List String) ≠ [] ∧
    update ageVhsModel (Msg.enter none ["vhs"])
      = (specEnterSuccess ageVhsModel ["vhs"], false) :=
  ⟨by decide, by decide,
    (enter_success_transition.1 ageVhsModel ["vhs"] (by decide)).2 (by decide)⟩

/-! ### C4: failed deletion is atomic -/

/-- C4: when the activate event is handled and the external delete
fails with reason `r` on item `name`, the only state change is that
status becomes `"Error removing name: r"`; item list, cursor, grid
geometry, sort flag and every other field are unchanged and the loop
continues; concretely, failure with `"remove failed"` on `"age"` yields
status `"Error removing age: remove failed"`. -/
theorem enter_failure_atomic :
    (∀ (m : Model) (e : String) (newList : List String),
      cursorIdx m < m.choices.length →
      update m (Msg.enter (some e) newList)
        = ({ m with status := "Error removing " ++ m.choices.getD (cursorIdx m) ""
              ++ ": " ++ e }, false)) ∧
    ((update ageModel (Msg.enter (some "remove failed") [])).1.status
        = "Error removing age: remove failed" ∧
      (update ageModel (Msg.enter (some "remove failed") [])).1.choices
        = ageModel.choices ∧
      (update ageModel (Msg.enter (some "remove failed") [])).1.cursorX
        = ageModel.cursorX ∧
      (update ageModel (Msg.enter (some "remove failed") [])).1.cursorY
        = ageModel.cursorY ∧
      (update ageModel (Msg.enter (some "remove failed") [])).1.rows = ageModel.rows ∧
      (update ageModel (Msg.enter (some "remove failed") [])).1.cols = ageModel.cols ∧
      (update ageModel (Msg.enter (some "remove failed") [])).1.sortAscending
        = ageModel.sortAscending ∧
      (update ageModel (Msg.enter (some "remove failed") [])).2 = false) := by
  constructor
  · intro m e newList hidx
    have hpos : 0 < m.choices.length := lt_of_le_of_lt (Nat.zero_le _) hidx
    simp only [update, if_pos hpos, if_pos hidx]
  · decide

/-- C4 witness: the atomicity equation instantiated at `ageModel`. -/
theorem enter_failure_atomic_witness :
    cursorIdx ageModel < ageModel.choices.length ∧
    update ageModel (Msg.enter (some "remove failed") [])
      = ({ ageModel with status := "Error removing "
            ++ ageModel.choices.getD (cursorIdx ageModel) "" ++ ": "
            ++ "remove failed" }, false) :=
  ⟨by decide, enter_failure_atomic.1 ageModel "remove failed" [] (by decide)⟩

/-! ### C5: sort toggle -/

/-- C5 counterexample: `unsortedModel` has a duplicate-free item list
that is not sorted according to its current flag; toggling the sort
twice does not restore the displayed order, and a single toggle does
not keep the cursor at the same linear index (the layout recomputation
clamps it). -/
theorem sort_toggle_involution_cex :
    unsortedModel.choices.Nodup ∧
    (run unsortedModel [Msg.toggleSort, Msg.toggleSort]).choices
      ≠ unsortedModel.choices ∧
    cursorIdx (update unsortedModel Msg.toggleSort).1 ≠ cursorIdx unsortedModel := by
  decide

/-- C5 (amended): toggling the sort twice restores the displayed order
for every state whose item list is sorted according to the current flag
(the invariant the program maintains; duplicates are harmless); and a
single toggle flips the ascending flag and re-sorts under the new flag,
keeping the cursor at the same coordinates and linear index, provided
the stored grid geometry agrees with the recomputed one and the cursor
is in bounds (all of which hold in reachable states). -/
theorem sort_toggle_involution_amended :
    (∀ m : Model, m.choices = sortList m.sortAscending m.choices →
      (run m [Msg.toggleSort, Msg.toggleSort]).choices = m.choices) ∧
    (∀ m : Model, m.choices ≠ [] → m.rows = gridRows m → m.cols = gridCols m →
      m.cursorX < m.cols → m.cursorY < m.rows → cursorIdx m < m.choices.length →
      (update m Msg.toggleSort).1.sortAscending = !m.sortAscending ∧
      (update m Msg.toggleSort).1.choices = sortList (!m.sortAscending) m.choices ∧
      (update m Msg.toggleSort).1.cursorX = m.cursorX ∧
      (update m Msg.toggleSort).1.cursorY = m.cursorY ∧
      (update m Msg.toggleSort).1.rows = m.rows ∧
      cursorIdx (update m Msg.toggleSort).1 = cursorIdx m) := by
  constructor
  · intro m hs
    show (update (update m Msg.toggleSort).1 Msg.toggleSort).1.choices = m.choices
    have h1 : (update m Msg.toggleSort).1.choices
        = (sortChoices { m with sortAscending := !m.sortAscending }).choices := by
      show (updateGrid (sortChoices { m with sortAscending := !m.sortAscending })).choices
        = _
      rw [updateGrid_choices]
    have h1a : (update m Msg.toggleSort).1.sortAscending = !m.sortAscending := by
      show (updateGrid
          (sortChoices { m with sortAscending := !m.sortAscending })).sortAscending = _
      rw [updateGrid_sortAscending, sortChoices_sortAscending]
    obtain ⟨s1, hS⟩ : ∃ s1, (update m Msg.toggleSort).1 = s1 := ⟨_, rfl⟩
    rw [hS] at h1 h1a ⊢
    by_cases hc : m.choices = []
    · have h1e : s1.choices = [] := by
        rw [h1]
        unfold sortChoices
        rw [if_pos hc]
        exact hc
      show (updateGrid (sortChoices { s1 with sortAscending := !s1.sortAscending })).choices
        = m.choices
      rw [updateGrid_choices]
      unfold sortChoices
      rw [if_pos h1e]
      show s1.choices = m.choices
      rw [h1e, hc]
    · have h1c : s1.choices = sortList (!m.sortAscending) m.choices := by
        rw [h1, sortChoices_choices { m with sortAscending := !m.sortAscending } hc]
      have h1ne : s1.choices ≠ [] := by
        rw [h1c]
        intro hE
        apply hc
        have hlen := congrArg List.length hE
        rw [sortList_length] at hlen
        exact List.length_eq_zero.mp hlen
      show (updateGrid (sortChoices { s1 with sortAscending := !s1.sortAscending })).choices
        = m.choices
      rw [updateGrid_choices,
        sortChoices_choices { s1 with sortAscending := !s1.sortAscending } h1ne]
      show sortList (!s1.sortAscending) s1.choices = m.choices
      rw [h1a, h1c, Bool.not_not, sortList_sortList]
      exact hs.symm
  · intro m hne hrows hcols hx hy hidx
    have hm1c : (sortChoices { m with sortAscending := !m.sortAscending }).choices
        = sortList (!m.sortAscending) m.choices :=
      sortChoices_choices { m with sortAscending := !m.sortAscending } hne
    have hperm : List.Perm
        (sortChoices { m with sortAscending := !m.sortAscending }).choices m.choices :=
      sortChoices_perm _
    have hm1ne : (sortChoices { m with sortAscending := !m.sortAscending }).choices
        ≠ [] := by
      rw [hm1c]
      intro hE
      apply hne
      have hlen := congrArg List.length hE
      rw [sortList_length] at hlen
      exact List.length_eq_zero.mp hlen
    have hR : gridRows (sortChoices { m with sortAscending := !m.sortAscending })
        = gridRows m :=
      gridRows_congr hperm (sortChoices_height _) (sortChoices_logs _)
        (sortChoices_showLogs _)
    have hC : gridCols (sortChoices { m with sortAscending := !m.sortAscending })
        = gridCols m :=
      gridCols_congr hperm (sortChoices_width _) (sortChoices_height _)
        (sortChoices_logs _) (sortChoices_showLogs _)
    have hcx : clampedX (sortChoices { m with sortAscending := !m.sortAscending })
        = m.cursorX := by
      unfold clampedX
      rw [sortChoices_cursorX, hC,
        if_neg (not_le.mpr (show m.cursorX < gridCols m from hcols ▸ hx))]
    have hcy : clampedY (sortChoices { m with sortAscending := !m.sortAscending })
        = m.cursorY := by
      unfold clampedY
      rw [sortChoices_cursorY, hR,
        if_neg (not_le.mpr (show m.cursorY < gridRows m from hrows ▸ hy))]
    have hsnap : ¬ (clampedY (sortChoices { m with sortAscending := !m.sortAscending })
        + clampedX (sortChoices { m with sortAscending := !m.sortAscending })
          * gridRows (sortChoices { m with sortAscending := !m.sortAscending })
        ≥ (sortChoices { m with sortAscending := !m.sortAscending }).choices.length) := by
      rw [hcx, hcy, hR, hm1c, sortList_length, ← hrows]
      exact not_le.mpr hidx
    have hfinal : updateGrid (sortChoices { m with sortAscending := !m.sortAscending })
        = { sortChoices { m with sortAscending := !m.sortAscending } with
            rows := gridRows (sortChoices { m with sortAscending := !m.sortAscending }),
            cols := gridCols (sortChoices { m with sortAscending := !m.sortAscending }),
            cursorX := clampedX (sortChoices { m with sortAscending := !m.sortAscending }),
            cursorY :=
              clampedY (sortChoices { m with sortAscending := !m.sortAscending }) } := by
      unfold updateGrid
      rw [if_neg hm1ne, if_neg hsnap]
    refine ⟨?_, ?_, ?_, ?_, ?_, ?_⟩
    · show (updateGrid
          (sortChoices { m with sortAscending := !m.sortAscending })).sortAscending = _
      rw [updateGrid_sortAscending, sortChoices_sortAscending]
    · show (updateGrid (sortChoices { m with sortAscending := !m.sortAscending })).choices
        = _
      rw [updateGrid_choices, hm1c]
    · show (updateGrid (sortChoices { m with sortAscending := !m.sortAscending })).cursorX
        = _
      rw [hfinal]
      exact hcx
    · show (updateGrid (sortChoices { m with sortAscending := !m.sortAscending })).cursorY
        = _
      rw [hfinal]
      exact hcy
    · show (updateGrid (sortChoices { m with sortAscending := !m.sortAscending })).rows = _
      rw [hfinal]
      show gridRows (sortChoices { m with sortAscending := !m.sortAscending }) = m.rows
      rw [hR, ← hrows]
    · show cursorIdx (updateGrid
          (sortChoices { m with sortAscending := !m.sortAscending })) = _
      unfold cursorIdx
      rw [hfinal]
      show clampedY (sortChoices { m with sortAscending := !m.sortAscending })
          + clampedX (sortChoices { m with sortAscending := !m.sortAscending })
            * gridRows (sortChoices { m with sortAscending := !m.sortAscending })
        = m.cursorY + m.cursorX * m.rows
      rw [hcx, hcy, hR, ← hrows]

/-- C5 witness: both amended parts instantiated at `ageVhsModel`, whose
list is sorted ascending and whose geometry is consistent. -/
theorem sort_toggle_involution_amended_witness :
    (ageVhsModel.choices = sortList ageVhsModel.sortAscending ageVhsModel.choices ∧
      (run ageVhsModel [Msg.toggleSort, Msg.toggleSort]).choices
        = ageVhsModel.choices) ∧
    (ageVhsModel.choices ≠ [] ∧ ageVhsModel.rows = gridRows ageVhsModel ∧
      ageVhsModel.cols = gridCols ageVhsModel ∧
      ageVhsModel.cursorX < ageVhsModel.cols ∧
      ageVhsModel.cursorY < ageVhsModel.rows ∧
      cursorIdx ageVhsModel < ageVhsModel.choices.length ∧
      ((update ageVhsModel Msg.toggleSort).1.sortAscending
          = !ageVhsModel.sortAscending ∧
        (update ageVhsModel Msg.toggleSort).1.choices
          = sortList (!ageVhsModel.sortAscending) ageVhsModel.choices ∧
        (update ageVhsModel Msg.toggleSort).1.cursorX = ageVhsModel.cursorX ∧
        (update ageVhsModel Msg.toggleSort).1.cursorY = ageVhsModel.cursorY ∧
        (update ageVhsModel Msg.toggleSort).1.rows = ageVhsModel.rows ∧
        cursorIdx (update ageVhsModel Msg.toggleSort).1 = cursorIdx ageVhsModel)) :=
  ⟨⟨by decide, sort_toggle_involution_amended.1 ageVhsModel (by decide)⟩,
   ⟨by decide, by decide, by decide, by decide, by decide, by decide,
     sort_toggle_involution_amended.2 ageVhsModel (by decide) (by decide) (by decide)
       (by decide) (by decide) (by decide)⟩⟩

/-! ### C6: bounded log buffer -/

/-- C6: the log buffer has fixed capacity 50 and evicts the oldest
entries first: any sequence of appended messages leaves at most 50
formatted entries, and appending 51 messages sequentially leaves
exactly the most recent 50 with the earliest one dropped. -/
theorem log_buffer_bounded :
    (∀ msgs : List (String × String), (runLogs [] msgs).length ≤ maxLogLines) ∧
    (∀ msgs : List (String × String), msgs.length = 51 →
      runLogs [] msgs = (msgs.map (fun p => fmtLog p.1 p.2)).drop 1) := by
  constructor
  · intro msgs
    exact runLogs_length_le msgs [] (Nat.zero_le _)
  · intro msgs hlen
    have h1 : ([] : List String).length + msgs.length - maxLogLines = 1 := by
      simp [hlen, maxLogLines]
    rw [runLogs_eq_drop msgs [] (Nat.zero_le _), h1, List.nil_append]

/-- C6 witness: 51 identical messages leave the last 50 formatted
entries. -/
theorem log_buffer_bounded_witness :
    (List.replicate 51 ("INF", "message")).length = 51 ∧
    runLogs [] (List.replicate 51 ("INF", "message"))
      = ((List.replicate 51 ("INF", "message")).map (fun p => fmtLog p.1 p.2)).drop 1 :=
  ⟨by simp, log_buffer_bounded.2 _ (by simp)⟩

/-! ### C7: move-down and move-right guards -/

/-- C7: a move-down event changes the cursor row to `row + 1` exactly
when `row + 1 < rows` and the new column-major index is below the item
count, and is otherwise a no-op; move-right symmetrically for the
column; neither returns a quit command. -/
theorem move_down_right_guard (m : Model) :
    ((update m Msg.down).1 =
      if m.cursorY + 1 < m.rows ∧ m.cursorY + 1 + m.cursorX * m.rows < m.choices.length
      then { m with cursorY := m.cursorY + 1 } else m) ∧
    (update m Msg.down).2 = false ∧
    ((update m Msg.right).1 =
      if m.cursorX + 1 < m.cols ∧ m.cursorY + (m.cursorX + 1) * m.rows < m.choices.length
      then { m with cursorX := m.cursorX + 1 } else m) ∧
    (update m Msg.right).2 = false :=
  ⟨rfl, rfl, rfl, rfl⟩

/-! ### C8: entry point fails on an empty fetch -/

/-- C8: `RunTUI` returns immediately with the distinct
`ErrNoBinariesFound` error (whose message names the directory) and
never starts the interactive loop when the initial fetch is empty; when
the fetch is non-empty, no such error is ever returned. -/
theorem runTUI_empty_error :
    (∀ (dir : String) (choices : List String) (rErr : Option String) (pNil : Bool)
        (runErr : Option String), choices = [] →
      runTUI dir choices rErr pNil runErr
          = ⟨some (TUIError.noBinaries dir), false⟩ ∧
        (TUIError.noBinaries dir).message = ErrNoBinariesFoundMsg ++ ": " ++ dir) ∧
    (∀ (dir : String) (choices : List String) (rErr : Option String) (pNil : Bool)
        (runErr : Option String), choices ≠ [] → ∀ d : String,
      (runTUI dir choices rErr pNil runErr).err ≠ some (TUIError.noBinaries d)) := by
  constructor
  · intro dir choices rErr pNil runErr he
    subst he
    exact ⟨rfl, rfl⟩
  · intro dir choices rErr pNil runErr hne d
    cases choices with
    | nil => exact absurd rfl hne
    | cons a as =>
      unfold runTUI
      simp only [List.isEmpty_cons, Bool.false_eq_true, if_false]
      cases rErr with
      | some e => simp
      | none =>
        by_cases hp : pNil
        · rw [if_pos hp]
          simp
        · rw [if_neg hp]
          cases runErr with
          | some e => simp
          | none => simp

/-- C8 witness: both directions at concrete fetches. -/
theorem runTUI_empty_error_witness :
    (([] : List String) = [] ∧
      (runTUI "/bin" [] none false none
          = ⟨some (TUIError.noBinaries "/bin"), false⟩ ∧
        (TUIError.noBinaries "/bin").message
          = ErrNoBinariesFoundMsg ++ ": " ++ "/bin")) ∧
    ((["vhs"] : List String) ≠ [] ∧
      (runTUI "/bin" ["vhs"] none false none).err
        ≠ some (TUIError.noBinaries "/bin")) :=
  ⟨⟨rfl, runTUI_empty_error.1 "/bin" [] none false none rfl⟩,
   ⟨by decide, runTUI_empty_error.2 "/bin" ["vhs"] none false none (by decide) "/bin"⟩⟩

/-! ### C9: resize is idempotent -/

/-- C9: processing a resize event twice with the same width and height
yields exactly the state (grid geometry and cursor included) produced
by the first one. -/
theorem resize_idempotent (m : Model) (w h : Int) :
    update (update m (Msg.resize w h)).1 (Msg.resize w h)
      = update m (Msg.resize w h) := by
  show (updateGrid { (updateGrid { m with width := w, height := h }) with
          width := w, height := h }, false)
      = (updateGrid { m with width := w, height := h }, false)
  have hw : (updateGrid { m with width := w, height := h }).width = w :=
    updateGrid_width _
  have hh : (updateGrid { m with width := w, height := h }).height = h :=
    updateGrid_height _
  have hset : { (updateGrid { m with width := w, height := h }) with
      width := w, height := h } = updateGrid { m with width := w, height := h } :=
    model_set_dims_eq _ w h hw hh
  rw [hset, updateGrid_idem]

/-! ### C10: move-up and move-left preserve validity -/

/-- C10: move-up and move-left are guarded only by the floor-at-zero
check and never consult the item count, yet they preserve cursor
validity: from any state whose cursor index is below the item count,
the state after a move-up or move-left still satisfies that bound,
because decrementing the row or the column cannot increase the
column-major linear index. -/
theorem move_up_left_safe :
    (∀ m : Model,
      (update m Msg.up).1 =
        (if 0 < m.cursorY then { m with cursorY := m.cursorY - 1 } else m) ∧
      (update m Msg.left).1 =
        (if 0 < m.cursorX then { m with cursorX := m.cursorX - 1 } else m)) ∧
    (∀ m : Model, cursorIdx m < m.choices.length →
      cursorIdx (update m Msg.up).1 < (update m Msg.up).1.choices.length ∧
      cursorIdx (update m Msg.left).1 < (update m Msg.left).1.choices.length) := by
  constructor
  · intro m
    exact ⟨rfl, rfl⟩
  · intro m hidx
    constructor
    · by_cases hc : 0 < m.cursorY
      · simp only [update, if_pos hc]
        unfold cursorIdx at hidx ⊢
        exact lt_of_le_of_lt (Nat.add_le_add_right (Nat.sub_le _ _) _) hidx
      · simp only [update, if_neg hc]
        exact hidx
    · by_cases hc : 0 < m.cursorX
      · simp only [update, if_pos hc]
        unfold cursorIdx at hidx ⊢
        exact lt_of_le_of_lt
          (Nat.add_le_add_left (Nat.mul_le_mul_right _ (Nat.sub_le _ _)) _) hidx
      · simp only [update, if_neg hc]
        exact hidx

/-- C10 witness: the preservation facts instantiated at `ageVhsModel`. -/
theorem move_up_left_safe_witness :
    cursorIdx ageVhsModel < ageVhsModel.choices.length ∧
    (cursorIdx (update ageVhsModel Msg.up).1
        < (update ageVhsModel Msg.up).1.choices.length ∧
      cursorIdx (update ageVhsModel Msg.left).1
        < (update ageVhsModel Msg.left).1.choices.length) :=
  ⟨by decide, move_up_left_safe.2 ageVhsModel (by decide)⟩
